import Mathlib

/-!
Verification of the docfinder search aggregation engine.

This file shallowly embeds the core of the repository:
  * `src/search/unified.js`   — `dedupe`, `rank`, `unifiedSearchByName`
  * `src/connectors/*.js`     — the per-connector record-normalization maps
  * `src/connectors/microsoft.js` — `getAccessToken` (token expiry / refresh flow)

Modelling conventions:
  * JS numbers used as epoch-millisecond timestamps are `Int` (no overflow in JS
    doubles for these magnitudes); relevance scores are exact rationals `ℚ`
    (the literals 0.0 / 0.2 / 0.6 / 1.0 / 0.02 of the source are exact decimals).
  * A JS object field that may be `null` / `undefined` / absent is an `Option`;
    `none` covers all three (the source only distinguishes them by truthiness).
  * JS truthiness on strings (`s ? … : …`, `s || d`) is `s ≠ ""`; on numbers it
    is `n ≠ 0`; `a ?? d` (nullish coalescing) is `Option.getD`.
  * `async` functions that can reject are `Except String α`; externally supplied
    data (API responses, filesystem enumeration, the Fuse.js index, the
    credential store, the MSAL refresh call) are function arguments, since the
    source obtains them by I/O.
  * `Promise.all` over tasks rejects iff some task rejects; awaiting the tasks
    in order in the `Except` monad models this (only the identity of the error
    value, never whether an error occurs, depends on completion order).
  * JS `Array.prototype.sort` with a two-argument comparator is stable
    (ES2019); it is modelled by a stable insertion sort on the compared key.
-/

/-- JS truthiness of a string: only `""` (and absence) is falsy. -/
def jsTruthyStr (s : String) : Bool := s ≠ ""

/-- JS truthiness of an optional string field. -/
def jsTruthySOpt (o : Option String) : Bool :=
  match o with
  | some s => s ≠ ""
  | none => false

/-- JS `x || d` for an optional numeric field (`0`, `null` and absence give `d`). -/
def jsOrInt (o : Option Int) (d : Int) : Int :=
  match o with
  | some v => if v = 0 then d else v
  | none => d

/-- JS `x || d` for an optional string field (`""`, `null` and absence give `d`). -/
def jsOrStr (o : Option String) (d : String) : String :=
  match o with
  | some s => if s = "" then d else s
  | none => d

/-- JS template-literal stringification of a nullable number (`null` prints "null"). -/
def jsShowOptInt (o : Option Int) : String :=
  match o with
  | some v => toString v
  | none => "null"

/-- Does `needle` occur at the start of some suffix of `hay`? -/
def includesAux (needle : List Char) : List Char → Bool
  | [] => needle.isPrefixOf []
  | c :: rest => needle.isPrefixOf (c :: rest) || includesAux needle rest

/-- JS `String.prototype.includes`: substring containment. -/
def strIncludes (hay needle : String) : Bool :=
  includesAux needle.data hay.data

/-- JS `String.prototype.toLowerCase` (ASCII case folding, which covers every
string the repository compares). -/
def strToLower (s : String) : String :=
  ⟨s.data.map Char.toLower⟩

/-- JS `String.prototype.trim`: strip leading and trailing whitespace. -/
def strTrim (s : String) : String :=
  ⟨((s.data.dropWhile Char.isWhitespace).reverse.dropWhile
      Char.isWhitespace).reverse⟩

/-- The common normalized search-result record.  One structure covers every
connector's object shape; a field a given connector does not set is `none`
(mirroring an absent JS property, which reads as `undefined`).  `rank` is the
field added by the ranking step; `score` is the connector-supplied relevance
score (set only by the local connector). -/
structure SearchResult where
  id : String := ""
  title : String := ""
  source : String := ""
  account : String := ""
  path : Option String := none
  url : Option String := none
  downloadUrl : Option String := none
  mimeType : Option String := none
  modified : Option Int := none
  lastModified : Option Int := none
  size : Option Int := none
  owner : Option String := none
  itemType : Option String := none
  score : Option ℚ := none
  rank : Option ℚ := none
deriving DecidableEq

/-! ## `dedupe` (src/search/unified.js lines 5–13) -/

/-- The template-literal fallback key `` title:size:modified `` of `keyOf`. -/
def fallbackKey (r : SearchResult) : String :=
  r.title ++ ":" ++ jsShowOptInt r.size ++ ":" ++ jsShowOptInt r.modified

/-- `keyOf` from `dedupe`:
`` (r) => `${r.source}:${(r.id||'')}` || `${r.title}:${r.size}:${r.modified}` ``.
The `||` takes the second operand only when the first string is empty. -/
def keyOf (r : SearchResult) : String :=
  let primary := r.source ++ ":" ++ r.id
  if primary = "" then fallbackKey r else primary

/-- The loop of `dedupe`: walk the list, keeping a record iff its key has not
been seen; `seen` is the key set of the JS `Map` (insertion order of the Map's
values is the order in which kept records were first seen). -/
def dedupeGo (seen : List String) : List SearchResult → List SearchResult
  | [] => []
  | r :: rs =>
    if keyOf r ∈ seen then dedupeGo seen rs
    else r :: dedupeGo (keyOf r :: seen) rs

/-- `dedupe(results)` from src/search/unified.js. -/
def dedupe (results : List SearchResult) : List SearchResult :=
  dedupeGo [] results

/-! ## `rank` (src/search/unified.js lines 15–31) -/

/-- One year in milliseconds: `1000*60*60*24*365`. -/
def yearMs : ℚ := 1000 * 60 * 60 * 24 * 365

/-- `Math.min` on two (non-NaN) numbers. -/
def jsMin (a b : ℚ) : ℚ := if a ≤ b then a else b

/-- The title-match score of the `rank` map: starts at `1.0`; when the query is
non-empty it becomes `0.0` on exact lowercase match, `0.2` on substring match,
else the connector score `r.score ?? 0.6`.  `q` and `title` arrive already
lowercased, as in the source. -/
def titleScore (q title : String) (connectorScore : Option ℚ) : ℚ :=
  if q ≠ "" then
    if title = q then 0
    else if strIncludes title q then 1/5      -- 0.2
    else connectorScore.getD (3/5)            -- 0.6
  else 1

/-- `recencyBoost` of the `rank` map:
`r.modified ? (Date.now() - r.modified) / (1000*60*60*24*365) : 5`
(`now` stands for `Date.now()`; a `modified` of `0` is falsy in JS). -/
def recencyBoost (now : ℤ) (r : SearchResult) : ℚ :=
  match r.modified with
  | some m => if m = 0 then 5 else ((now - m : ℤ) : ℚ) / yearMs
  | none => 5

/-- The per-record map of `rank`: attach
`score + Math.min(recencyBoost, 5) * 0.02` as the `rank` field. -/
def rankOne (now : ℤ) (query : String) (r : SearchResult) : SearchResult :=
  let v : ℚ :=
    titleScore (strToLower query) (strToLower r.title) r.score
      + jsMin (recencyBoost now r) 5 * (1/50)   -- 0.02
  { r with rank := some v }

/-- The sort key of `rank`'s comparator: `a.rank ?? 1`. -/
def rankKey (r : SearchResult) : ℚ := r.rank.getD 1

/-- The sort key of the local connector's comparator: `a.score ?? 1`. -/
def scoreKey (r : SearchResult) : ℚ := r.score.getD 1

/-- Stable insertion of `x` into an already-sorted list: `x` goes before the
first element whose key is not smaller (so earlier list elements win ties, as
JS's stable sort guarantees). -/
def insertBy (key : SearchResult → ℚ) (x : SearchResult) :
    List SearchResult → List SearchResult
  | [] => [x]
  | y :: ys => if key y < key x then y :: insertBy key x ys else x :: y :: ys

/-- Stable ascending sort by `key`, modelling
`.sort((a, b) => (key a) - (key b))`. -/
def sortBy (key : SearchResult → ℚ) (l : List SearchResult) : List SearchResult :=
  l.foldr (insertBy key) []

/-- `rank(results, query)` from src/search/unified.js:
map, sort ascending by the composite score, `slice(0, 200)`. -/
def rank (now : ℤ) (results : List SearchResult) (query : String) :
    List SearchResult :=
  (sortBy rankKey (results.map (rankOne now query))).take 200

/-! ## `unifiedSearchByName` (src/search/unified.js lines 33–58) -/

/-- The `opts` argument: `includeSources` / `includeAccounts` (a non-array
option is already normalized to `[]` by the `Array.isArray` checks). -/
structure SearchOpts where
  includeSources : List String := []
  includeAccounts : List String := []

/-- Lines 48–57 of `unifiedSearchByName`: the pure tail that runs once the
three provider lists have resolved — concatenate in the fixed merge order
(local, google, microsoft), apply the account filter, apply the exact-match
source filter, dedupe, rank. -/
def mergeFilterRank (now : ℤ) (name : String) (opts : SearchOpts)
    (localRes googleRes msRes : List SearchResult) : List SearchResult :=
  let all := localRes ++ googleRes ++ msRes
  let f1 := if opts.includeAccounts.isEmpty then all
    else all.filter (fun r =>
      jsTruthyStr r.account && opts.includeAccounts.contains r.account)
  let f2 := if opts.includeSources.isEmpty then f1
    else f1.filter (fun r =>
      jsTruthyStr r.source && opts.includeSources.contains r.source)
  rank now (dedupe f2) name

/-- `unifiedSearchByName(name, cfg, opts)`.  The three provider searches are
`async` calls whose outcome (result list or rejection) is passed in; a task for
an unwanted provider is replaced by `Promise.resolve([])`.  `Promise.all`
rejects when any awaited task rejects, so the whole function rejects then. -/
def unifiedSearchByName (now : ℤ) (name : String) (opts : SearchOpts)
    (localTask googleTask msTask : Except String (List SearchResult)) :
    Except String (List SearchResult) :=
  let includeSources := opts.includeSources
  let wantsLocal := includeSources.isEmpty || includeSources.contains "local"
  let wantsGoogle := includeSources.isEmpty ||
    includeSources.any (fun s => s.startsWith "google" || s == "gmail-attachment")
  let wantsMicrosoft := includeSources.isEmpty ||
    includeSources.any (fun s => s.startsWith "microsoft")
  do
    let localRes ← if wantsLocal then localTask else .ok []
    let googleRes ← if wantsGoogle then googleTask else .ok []
    let msRes ← if wantsMicrosoft then msTask else .ok []
    pure (mergeFilterRank now name opts localRes googleRes msRes)

/-! ## `getAccessToken` (src/connectors/microsoft.js lines 124–219)

The credential-store read (`getTokens`), the MSAL refresh call
(`acquireTokenByRefreshToken`) and the token save (`saveTokens`) are awaited
I/O calls; their outcomes are passed in as `Except` values (`.error` = the
awaited promise rejected). -/

/-- The persisted `TokenRecord` for one `(provider, alias)` pair, as read back
by `getTokens` (fields the Microsoft flow consults). -/
structure TokenRecord where
  accessToken : Option String := none
  refreshToken : Option String := none
  expiresAt : Option Int := none
  scopes : Option (List String) := none
deriving DecidableEq

/-- The MSAL response of `acquireTokenByRefreshToken`. -/
structure RefreshResponse where
  accessToken : Option String := none
  refreshToken : Option String := none
  expiresOn : Option Int := none
  scopes : Option (List String) := none
deriving DecidableEq

/-- Observable outcome of `getAccessToken`: the returned value (`none` = the
JS `null` return) and whether `acquireTokenByRefreshToken` was invoked. -/
structure TokenOutcome where
  token : Option String
  refreshAttempted : Bool
deriving DecidableEq

/-- Body of the outer `try` of `getAccessToken`, given the already-read store
record.  Mirrors lines 132–209: validity check with the 5-minute buffer
(`expiresAt = savedTokens.expiresAt || 0`, `buffer = 300000`,
`expiresAt > now + buffer`), then the refresh branch (whose inner `try` also
covers `saveTokens`), then `return null`. -/
def getAccessTokenSaved (saved : Option TokenRecord) (now : Int)
    (refresh : Except String RefreshResponse) (save : Except String Unit) :
    TokenOutcome :=
  match saved with
  | none => { token := none, refreshAttempted := false }
  | some st =>
    let validSaved : Bool :=
      jsTruthySOpt st.accessToken && decide (jsOrInt st.expiresAt 0 > now + 300000)
    if validSaved then
      { token := st.accessToken, refreshAttempted := false }
    else if jsTruthySOpt st.refreshToken then
      match refresh with
      | .ok resp =>
        if jsTruthySOpt resp.accessToken then
          match save with
          | .ok _ => { token := resp.accessToken, refreshAttempted := true }
          | .error _ => { token := none, refreshAttempted := true }
        else
          { token := none, refreshAttempted := true }
      | .error _ => { token := none, refreshAttempted := true }
    else
      { token := none, refreshAttempted := false }

/-- `getAccessToken(account)`.  The outer `try { … } catch { …; return null }`
catches every failure — including a rejected credential-store read — and turns
it into the `null` return. -/
def getAccessToken (storeRead : Except String (Option TokenRecord)) (now : Int)
    (refresh : Except String RefreshResponse) (save : Except String Unit) :
    TokenOutcome :=
  match storeRead with
  | .ok saved => getAccessTokenSaved saved now refresh save
  | .error _ => { token := none, refreshAttempted := false }

/-! ## Connector record normalization

Each connector maps raw provider items to `SearchResult` records.  The raw
item structures carry exactly the fields the mapping closures read; timestamp
strings already parsed by `new Date(…).getTime()` / `Number(…)` arrive as
`Option Int` (`none` = the field was absent or falsy, making the JS
conditional choose `null`). -/

/-- A Google Drive `files.list` entry (src/connectors/google.js lines 38–50). -/
structure DriveItem where
  id : String := ""
  name : String := ""
  mimeType : Option String := none
  modifiedTime : Option Int := none
  size : Option Int := none
  webViewLink : Option String := none
  webContentLink : Option String := none
  ownerEmail : Option String := none
deriving DecidableEq

/-- The Drive mapping closure of `searchDrive`. -/
def driveToResult (acct : String) (f : DriveItem) : SearchResult :=
  { id := "gdrive:" ++ f.id
    title := f.name
    source := "google-drive"
    account := acct
    path := none
    url := some (jsOrStr f.webViewLink
      ("https://drive.google.com/file/d/" ++ f.id ++ "/view"))
    downloadUrl := f.webContentLink
    mimeType := f.mimeType
    modified := f.modifiedTime
    size := f.size
    owner := f.ownerEmail }

/-- A Gmail message with one attachment part
(src/connectors/google.js lines 70–87). -/
structure GmailPart where
  messageId : String := ""
  partId : String := ""
  filename : Option String := none
  internalDate : Option Int := none
  bodySize : Option Int := none
deriving DecidableEq

/-- The Gmail attachment record built by `searchGmail`
(`size: p.body?.size || null` turns a 0 size into `null`). -/
def gmailToResult (acct : String) (p : GmailPart) : SearchResult :=
  { id := "gmail:" ++ p.messageId ++ ":" ++ p.partId
    title := jsOrStr p.filename "(attachment)"
    source := "gmail-attachment"
    account := acct
    path := none
    url := some ("https://mail.google.com/mail/u/0/#inbox/" ++ p.messageId)
    modified := p.internalDate
    size := (match p.bodySize with
             | some v => if v = 0 then none else some v
             | none => none)
    owner := none }

/-- A OneDrive search hit (fields from
`$select=id,name,webUrl,lastModifiedDateTime,size,file`). -/
structure OneDriveItem where
  id : String := ""
  name : String := ""
  webUrl : Option String := none
  lastModifiedDateTime : Option Int := none
  size : Option Int := none
  isFile : Bool := true
deriving DecidableEq

/-- The OneDrive mapping closure of `searchOneDrive` (lines 270–279): note the
timestamp lands in `lastModified` and the record carries no `modified` field;
`size: item.size || 0` never yields `null`. -/
def oneDriveToResult (acct : String) (item : OneDriveItem) : SearchResult :=
  { id := "onedrive:" ++ item.id
    title := item.name
    url := item.webUrl
    itemType := some (if item.isFile then "file" else "folder")
    source := "microsoft-onedrive"
    account := acct
    lastModified := item.lastModifiedDateTime
    size := some (jsOrInt item.size 0) }

/-- A SharePoint search hit resource (`hit.resource || {}`, so every field may
be absent). -/
structure SharePointResource where
  id : Option String := none
  name : Option String := none
  title : Option String := none
  webUrl : Option String := none
  lastModifiedDateTime : Option Int := none
  size : Option Int := none
  isFile : Bool := false
deriving DecidableEq

/-- The SharePoint mapping closure of `searchSharePoint` (lines 368–380);
`hitId` is the fallback for a resource without an id. -/
def sharePointToResult (acct : String) (hitId : String)
    (item : SharePointResource) : SearchResult :=
  { id := "sharepoint:" ++ jsOrStr item.id hitId
    title := jsOrStr item.name (jsOrStr item.title "SharePoint Item")
    url := item.webUrl
    itemType := some (if item.isFile then "file" else "folder")
    source := "microsoft-sharepoint"
    account := acct
    lastModified := item.lastModifiedDateTime
    size := some (jsOrInt item.size 0) }

/-- An Outlook message (subject, receivedDateTime) as fetched by
`searchOutlook`. -/
structure OutlookMessage where
  id : String := ""
  subject : Option String := none
  receivedDateTime : Option Int := none
deriving DecidableEq

/-- An Outlook attachment entry. -/
structure OutlookAttachment where
  id : String := ""
  name : Option String := none
  size : Option Int := none
  contentType : Option String := none
deriving DecidableEq

/-- The Outlook attachment record built by `searchOutlook` (lines 490–502):
source tag is `microsoft-outlook`, the timestamp lands in `lastModified`. -/
def outlookToResult (acct : String) (m : OutlookMessage)
    (att : OutlookAttachment) : SearchResult :=
  { id := "outlook:" ++ m.id ++ ":" ++ att.id
    title := jsOrStr att.name "Attachment"
    url := some ("https://outlook.office.com/mail/id/" ++ m.id)
    itemType := some "file"
    source := "microsoft-outlook"
    account := acct
    lastModified := m.receivedDateTime
    size := some (jsOrInt att.size 0)
    mimeType := att.contentType }

/-! ## Local connector (src/connectors/local.js, `searchLocalByName`) -/

/-- The `fs.statSync` data the local connector reads. -/
structure FsStat where
  mtimeMs : Int := 0
  size : Int := 0
deriving DecidableEq

/-- JS `path.basename` for the POSIX file paths produced by fast-glob (no
trailing separator): the characters after the last `/`. -/
def basename (p : String) : String :=
  ⟨(p.data.reverse.takeWhile (fun c => c != '/')).reverse⟩

/-- The per-file record of the local connector (lines 139–152): `stat` is the
`fs.statSync` result (`none` = the call threw). -/
def mkLocalFile (filePath : String) (stat : Option FsStat) : SearchResult :=
  { id := "local:" ++ filePath
    title := basename filePath
    source := "local"
    account := "this-mac"
    path := some filePath
    url := some filePath
    modified := (match stat with | some st => some st.mtimeMs | none => none)
    size := (match stat with | some st => some st.size | none => none) }

/-- `searchLocalByName(name, localCfg)`.  `entries` is the fast-glob
enumeration paired with each file's `statSync` outcome; `fuse` is the Fuse.js
index search (`fuse.search(name)` returns `{item, score}` pairs drawn from the
indexed list).  An empty (or all-blank) name returns the first 2000 files
unranked; otherwise matches get the Fuse score attached and are sorted by it. -/
def searchLocalByName
    (fuse : List SearchResult → String → List (SearchResult × Option ℚ))
    (entries : List (String × Option FsStat)) (name : String) :
    List SearchResult :=
  let files := entries.map (fun e => mkLocalFile e.1 e.2)
  if strTrim name = "" then files.take 2000
  else
    sortBy scoreKey
      ((fuse files name).map (fun p => { p.1 with score := p.2 }))

/-! ## Helper lemmas -/

/-- The primary dedupe key `source ++ ":" ++ id` always contains a `:` and is
therefore never the empty string — so the `||` fallback in `keyOf` can never
fire. -/
theorem primary_key_ne_empty (r : SearchResult) :
    r.source ++ ":" ++ r.id ≠ "" := by
  intro h
  have hd : (r.source ++ ":" ++ r.id).data = ("" : String).data := by rw [h]
  simp [String.data_append] at hd

/-- `keyOf` always returns the primary key. -/
theorem keyOf_eq (r : SearchResult) : keyOf r = r.source ++ ":" ++ r.id := by
  unfold keyOf
  exact if_neg (primary_key_ne_empty r)

theorem mem_of_mem_dedupeGo {seen : List String} {l : List SearchResult}
    {x : SearchResult} (hx : x ∈ dedupeGo seen l) : x ∈ l := by
  induction l generalizing seen with
  | nil => simp [dedupeGo] at hx
  | cons r rs ih =>
    by_cases h : keyOf r ∈ seen
    · simp only [dedupeGo, if_pos h] at hx
      exact List.mem_cons_of_mem _ (ih hx)
    · simp only [dedupeGo, if_neg h, List.mem_cons] at hx
      rcases hx with rfl | hx
      · exact List.mem_cons_self _ _
      · exact List.mem_cons_of_mem _ (ih hx)

theorem keyOf_notin_seen_of_mem_dedupeGo {seen : List String}
    {l : List SearchResult} {x : SearchResult} (hx : x ∈ dedupeGo seen l) :
    keyOf x ∉ seen := by
  induction l generalizing seen with
  | nil => simp [dedupeGo] at hx
  | cons r rs ih =>
    by_cases h : keyOf r ∈ seen
    · simp only [dedupeGo, if_pos h] at hx
      exact ih hx
    · simp only [dedupeGo, if_neg h, List.mem_cons] at hx
      rcases hx with rfl | hx
      · exact h
      · have := ih hx
        intro hs
        exact this (List.mem_cons_of_mem _ hs)

theorem pairwise_dedupeGo (seen : List String) (l : List SearchResult) :
    (dedupeGo seen l).Pairwise (fun a b => keyOf a ≠ keyOf b) := by
  induction l generalizing seen with
  | nil => simp [dedupeGo]
  | cons r rs ih =>
    by_cases h : keyOf r ∈ seen
    · simpa only [dedupeGo, if_pos h] using ih seen
    · simp only [dedupeGo, if_neg h, List.pairwise_cons]
      refine ⟨fun b hb => ?_, ih _⟩
      have := keyOf_notin_seen_of_mem_dedupeGo hb
      intro he
      exact this (by rw [← he]; exact List.mem_cons_self _ _)

theorem dedupeGo_eq_self (l : List SearchResult) (seen : List String)
    (h1 : ∀ x ∈ l, keyOf x ∉ seen)
    (h2 : l.Pairwise (fun a b => keyOf a ≠ keyOf b)) :
    dedupeGo seen l = l := by
  induction l generalizing seen with
  | nil => simp [dedupeGo]
  | cons r rs ih =>
    rw [List.pairwise_cons] at h2
    have hr : keyOf r ∉ seen := h1 r (List.mem_cons_self _ _)
    simp only [dedupeGo, if_neg hr]
    congr 1
    refine ih _ (fun x hx => ?_) h2.2
    intro hs
    rcases List.mem_cons.mp hs with he | hs
    · exact h2.1 x hx he.symm
    · exact h1 x (List.mem_cons_of_mem _ hx) hs

theorem mem_insertBy {key : SearchResult → ℚ} {x y : SearchResult}
    {l : List SearchResult} :
    y ∈ insertBy key x l ↔ y = x ∨ y ∈ l := by
  induction l with
  | nil => simp [insertBy]
  | cons z zs ih =>
    by_cases h : key z < key x
    · simp only [insertBy, if_pos h, List.mem_cons, ih]
      tauto
    · simp only [insertBy, if_neg h, List.mem_cons]

theorem mem_sortBy {key : SearchResult → ℚ} {y : SearchResult}
    {l : List SearchResult} :
    y ∈ sortBy key l ↔ y ∈ l := by
  induction l with
  | nil => simp [sortBy]
  | cons z zs ih =>
    simp only [sortBy, List.foldr] at ih ⊢
    rw [mem_insertBy, ih, List.mem_cons]

/-- `rankOne` only adds the `rank` field. -/
theorem rankOne_source (now : ℤ) (q : String) (r : SearchResult) :
    (rankOne now q r).source = r.source := rfl

theorem rankOne_account (now : ℤ) (q : String) (r : SearchResult) :
    (rankOne now q r).account = r.account := rfl

/-- Every record in `rank`'s output is the `rankOne` image of an input record. -/
theorem mem_rank {now : ℤ} {l : List SearchResult} {q : String}
    {x : SearchResult} (hx : x ∈ rank now l q) :
    ∃ r ∈ l, x = rankOne now q r := by
  have h1 : x ∈ sortBy rankKey (l.map (rankOne now q)) :=
    List.take_subset _ _ hx
  have h2 : x ∈ l.map (rankOne now q) := mem_sortBy.mp h1
  rcases List.mem_map.mp h2 with ⟨r, hr, he⟩
  exact ⟨r, hr, he.symm⟩

/-- `jsMin a b ≤ b`. -/
theorem jsMin_le_right (a b : ℚ) : jsMin a b ≤ b := by
  unfold jsMin
  split <;> simp_all

/-- `0 ≤ jsMin a b` when both arguments are nonnegative. -/
theorem jsMin_nonneg {a b : ℚ} (ha : 0 ≤ a) (hb : 0 ≤ b) : 0 ≤ jsMin a b := by
  unfold jsMin
  split <;> assumption

/-! ## Claim theorems -/

/-- Claim C8: the Aggregator's `dedupe` is idempotent, and its output contains
no two entries with equal `(source, id)` pair. -/
theorem dedupe_idempotent_and_source_id_unique (R : List SearchResult) :
    dedupe (dedupe R) = dedupe R ∧
    (dedupe R).Pairwise (fun a b => ¬ (a.source = b.source ∧ a.id = b.id)) := by
  constructor
  · exact dedupeGo_eq_self _ _ (fun x _ => List.not_mem_nil _)
      (pairwise_dedupeGo _ _)
  · refine (pairwise_dedupeGo [] R).imp ?_
    intro a b hne hab
    exact hne (by rw [keyOf_eq, keyOf_eq, hab.1, hab.2])

/-- Claim C2 (code bug): for two records with empty `id`, the dedupe key of
both is just `source + ":"` — the `title:size:modified` fallback key written in
`keyOf` can never be reached, because the primary template string always
contains `":"` and is therefore always truthy.  The two records below have
different fallback keys yet the second is dropped. -/
theorem dedupe_empty_id_fallback_is_dead :
    dedupe [{ source := "local", id := "", title := "a",
              size := some 1, modified := some 2 },
            { source := "local", id := "", title := "b",
              size := some 3, modified := some 4 }] =
      [{ source := "local", id := "", title := "a",
         size := some 1, modified := some 2 }] ∧
    keyOf { source := "local", id := "", title := "a",
            size := some 1, modified := some 2 } = "local:" ∧
    keyOf { source := "local", id := "", title := "b",
            size := some 3, modified := some 4 } = "local:" ∧
    fallbackKey { source := "local", id := "", title := "a",
                  size := some 1, modified := some 2 } ≠
      fallbackKey { source := "local", id := "", title := "b",
                    size := some 3, modified := some 4 } := by
  refine ⟨by decide, by decide, by decide, by decide⟩

/-- Claim C4: with the empty query, every record's ranking score is the
default `1.0` plus the recency term only — the title-matching branch is never
entered (the score does not depend on the title), and the base score is
neither the exact-match `0.0` nor the substring-match `0.2`. -/
theorem rank_empty_query_default_score (now : ℤ) (r : SearchResult) :
    (rankOne now "" r).rank =
      some (1 + jsMin (recencyBoost now r) 5 * (1/50)) ∧
    (∀ t, (rankOne now "" { r with title := t }).rank =
      (rankOne now "" r).rank) ∧
    ((1 : ℚ) ≠ 0 ∧ (1 : ℚ) ≠ 1/5) := by
  refine ⟨rfl, fun t => rfl, by norm_num⟩

/-- Claim C3 (corrected): a failing credential-store read does *not* propagate
out of `getAccessToken` — the outer catch swallows it and returns `null`,
exactly the value of the not-authenticated cases. -/
theorem getAccessToken_store_failure_returns_null (e : String) (now : ℤ)
    (refresh : Except String RefreshResponse) (save : Except String Unit) :
    getAccessToken (.error e) now refresh save =
      { token := none, refreshAttempted := false } := rfl

/-- Claim C3 counterexample: with the store read rejecting, `getAccessToken`
returns `null` rather than propagating a hard error. -/
theorem getAccessToken_store_failure_cex :
    (getAccessToken (.error "keychain unavailable") 0
        (.ok {}) (.ok ())).token = none := rfl

/-- When the saved token is not usable (`validSaved` is false) but a refresh
token is stored, `getAccessToken` always enters the refresh branch. -/
theorem refreshAttempted_of_invalid (st : TokenRecord) (now : ℤ)
    (refresh : Except String RefreshResponse) (save : Except String Unit)
    (hb : (jsTruthySOpt st.accessToken
            && decide (jsOrInt st.expiresAt 0 > now + 300000)) = false)
    (hr : jsTruthySOpt st.refreshToken = true) :
    (getAccessToken (.ok (some st)) now refresh save).refreshAttempted = true := by
  cases refresh with
  | error e => simp [getAccessToken, getAccessTokenSaved, hb, hr]
  | ok resp =>
    cases hres : jsTruthySOpt resp.accessToken <;> cases save <;>
      simp [getAccessToken, getAccessTokenSaved, hb, hr, hres]

/-- Claim C7: `getAccessToken` returns the stored access token without a
refresh attempt only when the stored `expiresAt` is present and more than the
5-minute buffer past `now`; with `expiresAt = now + 4 min`, or with no
`expiresAt` at all, it enters the refresh branch whenever a refresh token is
stored. -/
theorem getAccessToken_expiry_buffer (st : TokenRecord) (now : ℤ)
    (refresh : Except String RefreshResponse) (save : Except String Unit)
    (hnow : 0 ≤ now) :
    (((getAccessToken (.ok (some st)) now refresh save).refreshAttempted = false ∧
      (getAccessToken (.ok (some st)) now refresh save).token ≠ none) →
      (getAccessToken (.ok (some st)) now refresh save).token = st.accessToken ∧
      ∃ t, st.expiresAt = some t ∧ now + 300000 < t) ∧
    (st.expiresAt = some (now + 240000) → jsTruthySOpt st.refreshToken = true →
      (getAccessToken (.ok (some st)) now refresh save).refreshAttempted = true) ∧
    (st.expiresAt = none → jsTruthySOpt st.refreshToken = true →
      (getAccessToken (.ok (some st)) now refresh save).refreshAttempted = true) := by
  refine ⟨?_, ?_, ?_⟩
  · rintro ⟨hra, htok⟩
    by_cases hv : (jsTruthySOpt st.accessToken
        && decide (jsOrInt st.expiresAt 0 > now + 300000)) = true
    · have hout : getAccessToken (.ok (some st)) now refresh save =
          { token := st.accessToken, refreshAttempted := false } := by
        simp [getAccessToken, getAccessTokenSaved, hv]
      rw [hout]
      have hv' := hv
      rw [Bool.and_eq_true] at hv'
      have h2 : jsOrInt st.expiresAt 0 > now + 300000 :=
        of_decide_eq_true hv'.2
      refine ⟨rfl, ?_⟩
      match hE : st.expiresAt with
      | none =>
        rw [hE] at h2
        simp only [jsOrInt] at h2
        omega
      | some t =>
        rw [hE] at h2
        simp only [jsOrInt] at h2
        by_cases ht : t = 0
        · rw [if_pos ht] at h2; omega
        · rw [if_neg ht] at h2; exact ⟨t, rfl, by omega⟩
    · rw [Bool.not_eq_true] at hv
      by_cases hr : jsTruthySOpt st.refreshToken = true
      · rw [refreshAttempted_of_invalid st now refresh save hv hr] at hra
        exact absurd hra (by simp)
      · rw [Bool.not_eq_true] at hr
        have hout : getAccessToken (.ok (some st)) now refresh save =
            { token := none, refreshAttempted := false } := by
          simp [getAccessToken, getAccessTokenSaved, hv, hr]
        rw [hout] at htok
        exact absurd rfl htok
  · intro hE hr
    refine refreshAttempted_of_invalid st now refresh save ?_ hr
    have hdf : decide (jsOrInt st.expiresAt 0 > now + 300000) = false := by
      rw [decide_eq_false_iff_not, hE]
      simp only [jsOrInt]
      split <;> omega
    rw [hdf, Bool.and_false]
  · intro hE hr
    refine refreshAttempted_of_invalid st now refresh save ?_ hr
    have hdf : decide (jsOrInt st.expiresAt 0 > now + 300000) = false := by
      rw [decide_eq_false_iff_not, hE]
      simp only [jsOrInt]
      omega
    rw [hdf, Bool.and_false]

/-- Claim C7 witness: a record expiring 4 minutes from now with a stored
refresh token makes `getAccessToken` attempt the refresh. -/
theorem getAccessToken_expiry_buffer_witness :
    (0 : ℤ) ≤ 0 ∧
    (getAccessToken
        (.ok (some { accessToken := some "tok", refreshToken := some "rt",
                     expiresAt := some 240000 }))
        0 (.error "refresh rejected") (.ok ())).refreshAttempted = true :=
  ⟨le_refl 0,
   (getAccessToken_expiry_buffer
      { accessToken := some "tok", refreshToken := some "rt",
        expiresAt := some 240000 }
      0 (.error "refresh rejected") (.ok ()) (le_refl 0)).2.1 (by norm_num) rfl⟩

/-- `if b then .ok x else .ok y` never rejects. -/
theorem ite_ok (b : Bool) (x y : List SearchResult) :
    (if b then (Except.ok x : Except String (List SearchResult)) else .ok y) =
      .ok (if b then x else y) := by
  cases b <;> rfl

/-- Claim C1 (corrected): `unifiedSearchByName` resolves when every provider
task resolves, but it installs no per-task catch — when the local provider's
promise rejects (and the local source is in scope), the rejection propagates
and `unifiedSearchByName` itself rejects instead of returning the other
providers' merged results. -/
theorem unifiedSearch_no_task_catch (now : ℤ) (name : String)
    (opts : SearchOpts) (la ga ma : List SearchResult)
    (g m : Except String (List SearchResult)) (e : String) :
    (∃ out, unifiedSearchByName now name opts (.ok la) (.ok ga) (.ok ma) =
      .ok out) ∧
    (opts.includeSources = [] ∨ "local" ∈ opts.includeSources →
      unifiedSearchByName now name opts (.error e) g m = .error e) := by
  constructor
  · simp only [unifiedSearchByName]
    cases hL : (opts.includeSources.isEmpty
        || opts.includeSources.contains "local") <;>
    cases hG : (opts.includeSources.isEmpty ||
        opts.includeSources.any fun s =>
          s.startsWith "google" || s == "gmail-attachment") <;>
    cases hM : (opts.includeSources.isEmpty ||
        opts.includeSources.any fun s => s.startsWith "microsoft") <;>
    exact ⟨_, rfl⟩
  · intro h
    have hw : (opts.includeSources.isEmpty
        || opts.includeSources.contains "local") = true := by
      rcases h with h | h
      · rw [h]; rfl
      · have hc : opts.includeSources.contains "local" = true :=
          List.elem_eq_true_of_mem h
        rw [hc, Bool.or_true]
    simp only [unifiedSearchByName, hw]
    rfl

/-- Claim C1 counterexample: a rejected local task makes the whole
`unifiedSearchByName` reject — the Google results are not returned. -/
theorem unifiedSearch_rejects_cex :
    unifiedSearchByName 0 "x" {} (.error "boom")
      (.ok [{ id := "g1", title := "x", source := "google-drive",
              account := "a" }])
      (.ok []) = .error "boom" := rfl

/-- Claim C1 witness: concrete instantiation of both halves. -/
theorem unifiedSearch_no_task_catch_witness :
    (∃ out, unifiedSearchByName 0 "q" {} (.ok []) (.ok []) (.ok []) =
      .ok out) ∧
    unifiedSearchByName 0 "q" {} (.error "down") (.ok []) (.ok []) =
      .error "down" :=
  ⟨(unifiedSearch_no_task_catch 0 "q" {} [] [] [] (.ok []) (.ok []) "down").1,
   (unifiedSearch_no_task_catch 0 "q" {} [] [] [] (.ok []) (.ok []) "down").2
     (Or.inl rfl)⟩

/-- The source tags listed by the spec's `SearchResult` schema. -/
def specSourceTags : List String :=
  ["google-drive", "gmail-attachment", "microsoft-onedrive",
   "microsoft-sharepoint", "microsoft-teams", "microsoft-outlook-attachment",
   "local"]

/-- Claim C6 counterexample: an Outlook attachment record is tagged
`microsoft-outlook`, which is not in the spec's tag set, and carries no
`modified` field (its timestamp is in `lastModified`). -/
theorem outlook_record_cex :
    (outlookToResult "work" { id := "m1", receivedDateTime := some 1111 }
        { id := "a1", name := some "Report.pdf" }).source ∉ specSourceTags ∧
    (outlookToResult "work" { id := "m1", receivedDateTime := some 1111 }
        { id := "a1", name := some "Report.pdf" }).modified = none ∧
    (outlookToResult "work" { id := "m1", receivedDateTime := some 1111 }
        { id := "a1", name := some "Report.pdf" }).lastModified = some 1111 := by
  refine ⟨by decide, rfl, rfl⟩

/-- Claim C6 (corrected): Google and local connector records carry `modified`
(epoch milliseconds or null) and spec-listed source tags; the Microsoft
connector records carry their timestamp in `lastModified` with no `modified`
field, OneDrive and SharePoint tags are spec-listed, but Outlook attachment
records are tagged `microsoft-outlook`, which is outside the spec's tag set. -/
theorem connector_records_normalized (acct : String) (f : DriveItem)
    (p : GmailPart) (fp : String) (st : Option FsStat) (od : OneDriveItem)
    (hid : String) (sp : SharePointResource) (m : OutlookMessage)
    (att : OutlookAttachment) :
    ((driveToResult acct f).source = "google-drive" ∧
      (driveToResult acct f).modified = f.modifiedTime ∧
      (driveToResult acct f).source ∈ specSourceTags) ∧
    ((gmailToResult acct p).source = "gmail-attachment" ∧
      (gmailToResult acct p).modified = p.internalDate ∧
      (gmailToResult acct p).source ∈ specSourceTags) ∧
    ((mkLocalFile fp st).source = "local" ∧
      (mkLocalFile fp st).source ∈ specSourceTags) ∧
    ((oneDriveToResult acct od).source = "microsoft-onedrive" ∧
      (oneDriveToResult acct od).modified = none ∧
      (oneDriveToResult acct od).lastModified = od.lastModifiedDateTime ∧
      (oneDriveToResult acct od).source ∈ specSourceTags) ∧
    ((sharePointToResult acct hid sp).source = "microsoft-sharepoint" ∧
      (sharePointToResult acct hid sp).modified = none ∧
      (sharePointToResult acct hid sp).lastModified = sp.lastModifiedDateTime ∧
      (sharePointToResult acct hid sp).source ∈ specSourceTags) ∧
    ((outlookToResult acct m att).source = "microsoft-outlook" ∧
      (outlookToResult acct m att).modified = none ∧
      (outlookToResult acct m att).lastModified = m.receivedDateTime ∧
      (outlookToResult acct m att).source ∉ specSourceTags) := by
  refine ⟨⟨rfl, rfl, ?_⟩, ⟨rfl, rfl, ?_⟩, ⟨rfl, ?_⟩, ⟨rfl, rfl, rfl, ?_⟩,
    ⟨rfl, rfl, rfl, ?_⟩, ⟨rfl, rfl, rfl, ?_⟩⟩
  · show ("google-drive" : String) ∈ specSourceTags
    decide
  · show ("gmail-attachment" : String) ∈ specSourceTags
    decide
  · show ("local" : String) ∈ specSourceTags
    decide
  · show ("microsoft-onedrive" : String) ∈ specSourceTags
    decide
  · show ("microsoft-sharepoint" : String) ∈ specSourceTags
    decide
  · show ("microsoft-outlook" : String) ∉ specSourceTags
    decide

/-- With all three tasks resolved, `unifiedSearchByName` resolves to the merge
pipeline applied to the gated provider lists. -/
theorem unifiedSearch_ok_eq (now : ℤ) (name : String) (opts : SearchOpts)
    (la ga ma : List SearchResult) :
    unifiedSearchByName now name opts (.ok la) (.ok ga) (.ok ma) =
      .ok (mergeFilterRank now name opts
        (if opts.includeSources.isEmpty || opts.includeSources.contains "local"
          then la else [])
        (if opts.includeSources.isEmpty || opts.includeSources.any
            (fun s => s.startsWith "google" || s == "gmail-attachment")
          then ga else [])
        (if opts.includeSources.isEmpty || opts.includeSources.any
            (fun s => s.startsWith "microsoft")
          then ma else [])) := by
  simp only [unifiedSearchByName]
  cases h1 : (opts.includeSources.isEmpty
      || opts.includeSources.contains "local") <;>
  cases h2 : (opts.includeSources.isEmpty || opts.includeSources.any
      (fun s => s.startsWith "google" || s == "gmail-attachment")) <;>
  cases h3 : (opts.includeSources.isEmpty || opts.includeSources.any
      (fun s => s.startsWith "microsoft")) <;>
  rfl

theorem mem_of_mem_iteList {b : Bool} {l : List SearchResult}
    {x : SearchResult} (hx : x ∈ (if b then l else [])) : x ∈ l := by
  cases b
  · simp at hx
  · exact hx

theorem mem_of_mem_dedupe {l : List SearchResult} {x : SearchResult}
    (hx : x ∈ dedupe l) : x ∈ l :=
  mem_of_mem_dedupeGo hx

/-- Inversion for `mergeFilterRank`: every output record is the `rankOne`
image of a merged input record that passed both (possibly trivial) filters. -/
theorem mem_mergeFilterRank {now : ℤ} {name : String} {opts : SearchOpts}
    {lr gr mr : List SearchResult} {r : SearchResult}
    (hr : r ∈ mergeFilterRank now name opts lr gr mr) :
    ∃ r0 ∈ lr ++ gr ++ mr,
      r = rankOne now name r0 ∧
      (¬ opts.includeAccounts.isEmpty = true →
        r0.account ∈ opts.includeAccounts) ∧
      (¬ opts.includeSources.isEmpty = true →
        r0.source ∈ opts.includeSources) := by
  simp only [mergeFilterRank] at hr
  rcases mem_rank hr with ⟨r0, h0, he⟩
  have h2 := mem_of_mem_dedupe h0
  by_cases hs : opts.includeSources.isEmpty = true
  · rw [if_pos hs] at h2
    by_cases ha : opts.includeAccounts.isEmpty = true
    · rw [if_pos ha] at h2
      exact ⟨r0, h2, he, fun h => absurd ha h, fun h => absurd hs h⟩
    · rw [if_neg ha] at h2
      obtain ⟨h31, h32⟩ := List.mem_filter.mp h2
      have hacc : r0.account ∈ opts.includeAccounts := by
        rw [Bool.and_eq_true] at h32
        exact List.mem_of_elem_eq_true h32.2
      exact ⟨r0, h31, he, fun _ => hacc, fun h => absurd hs h⟩
  · rw [if_neg hs] at h2
    obtain ⟨h41, h42⟩ := List.mem_filter.mp h2
    have hsrc : r0.source ∈ opts.includeSources := by
      rw [Bool.and_eq_true] at h42
      exact List.mem_of_elem_eq_true h42.2
    by_cases ha : opts.includeAccounts.isEmpty = true
    · rw [if_pos ha] at h41
      exact ⟨r0, h41, he, fun h => absurd ha h, fun _ => hsrc⟩
    · rw [if_neg ha] at h41
      obtain ⟨h51, h52⟩ := List.mem_filter.mp h41
      have hacc : r0.account ∈ opts.includeAccounts := by
        rw [Bool.and_eq_true] at h52
        exact List.mem_of_elem_eq_true h52.2
      exact ⟨r0, h51, he, fun _ => hacc, fun _ => hsrc⟩

/-- Claim C5 (corrected): every result of a filtered `unifiedSearchByName`
run satisfies both filters — its account is in a non-empty `includeAccounts`
and its exact source tag is in a non-empty `includeSources` — and is the
ranked image of a record from the merged provider lists.  (The output is not
in general a subset of the unfiltered run's output, because the filters run
before dedupe and truncation; see the counterexample.) -/
theorem search_filter_soundness (now : ℤ) (name : String)
    (srcs accs : List String) (la ga ma out : List SearchResult)
    (hout : unifiedSearchByName now name ⟨srcs, accs⟩
      (.ok la) (.ok ga) (.ok ma) = .ok out)
    (r : SearchResult) (hr : r ∈ out) :
    (accs ≠ [] → r.account ∈ accs) ∧
    (srcs ≠ [] → r.source ∈ srcs) ∧
    ∃ r0 ∈ la ++ ga ++ ma, r = rankOne now name r0 := by
  rw [unifiedSearch_ok_eq] at hout
  have hoeq := Except.ok.inj hout
  subst hoeq
  rcases mem_mergeFilterRank hr with ⟨r0, h0, he, hacc, hsrc⟩
  have h0' : r0 ∈ la ++ ga ++ ma := by
    rcases List.mem_append.mp h0 with h | h
    · rcases List.mem_append.mp h with h | h
      · exact List.mem_append.mpr (Or.inl
          (List.mem_append.mpr (Or.inl (mem_of_mem_iteList h))))
      · exact List.mem_append.mpr (Or.inl
          (List.mem_append.mpr (Or.inr (mem_of_mem_iteList h))))
    · exact List.mem_append.mpr (Or.inr (mem_of_mem_iteList h))
  refine ⟨?_, ?_, r0, h0', he⟩
  · intro hne
    have hie : ¬ accs.isEmpty = true := by
      cases accs
      · exact absurd rfl hne
      · simp
    rw [he]
    exact hacc hie
  · intro hne
    have hie : ¬ srcs.isEmpty = true := by
      cases srcs
      · exact absurd rfl hne
      · simp
    rw [he]
    exact hsrc hie

/-- Claim C5 witness: a single local record surviving an account filter. -/
theorem search_filter_soundness_witness :
    ((["A"] : List String) ≠ [] →
      (rankOne 0 "" { id := "x", title := "t1", source := "local",
                      account := "A" }).account ∈ (["A"] : List String)) ∧
    (([] : List String) ≠ [] →
      (rankOne 0 "" { id := "x", title := "t1", source := "local",
                      account := "A" }).source ∈ ([] : List String)) ∧
    ∃ r0 ∈ ([{ id := "x", title := "t1", source := "local",
               account := "A" }] : List SearchResult) ++ [] ++ [],
      rankOne 0 "" { id := "x", title := "t1", source := "local",
                     account := "A" } = rankOne 0 "" r0 :=
  search_filter_soundness 0 "" [] ["A"]
    [{ id := "x", title := "t1", source := "local", account := "A" }] [] []
    [rankOne 0 "" { id := "x", title := "t1", source := "local",
                    account := "A" }]
    rfl
    (rankOne 0 "" { id := "x", title := "t1", source := "local",
                    account := "A" })
    (List.Mem.head _)

/-- Claim C5 counterexample: filtering happens before dedupe, so an account
filter can surface a duplicate that the unfiltered run suppressed — the
filtered output is not a subset of the unfiltered output. -/
theorem search_filtered_not_subset_cex :
    ¬ (∀ r, r ∈ (match unifiedSearchByName 0 "" ⟨[], ["B"]⟩
          (.ok [{ id := "x", source := "local", account := "A", title := "t1" },
                { id := "x", source := "local", account := "B", title := "t2" }])
          (.ok []) (.ok []) with
        | .ok l => l
        | .error _ => []) →
      r ∈ (match unifiedSearchByName 0 "" ⟨[], []⟩
          (.ok [{ id := "x", source := "local", account := "A", title := "t1" },
                { id := "x", source := "local", account := "B", title := "t2" }])
          (.ok []) (.ok []) with
        | .ok l => l
        | .error _ => [])) := by
  decide

/-- The recency boost is nonnegative whenever the record's `modified`
timestamp is absent, zero, or not in the future. -/
theorem recencyBoost_nonneg {now : ℤ} {r : SearchResult}
    (h : ∀ t, r.modified = some t → t ≤ now) : 0 ≤ recencyBoost now r := by
  rcases hm : r.modified with _ | m
  · simp [recencyBoost, hm]
  · simp only [recencyBoost, hm]
    by_cases h0 : m = 0
    · rw [if_pos h0]; norm_num
    · rw [if_neg h0]
      apply div_nonneg
      · have h1 := h m hm
        have h2 : (0 : ℤ) ≤ now - m := by omega
        exact_mod_cast h2
      · norm_num [yearMs]

/-- Claim C9 (corrected): given the two scenario results, the exact-title
local match is ranked before the substring-matching Drive result for every
`modified` value of the local record, and for every Drive `modified` value
that is not in the future (absent, or `≤ now`). -/
theorem exact_match_wins (now : ℤ) (mL mD : Option ℤ)
    (hD : ∀ t, mD = some t → t ≤ now) :
    ((rank now
        [{ title := "Report.pdf", source := "local", modified := mL },
         { title := "Annual Report.pdf", source := "google-drive",
           modified := mD }] "Report.pdf").map SearchResult.source) =
      ["local", "google-drive"] := by
  have hvL : rankKey (rankOne now "Report.pdf"
      { title := "Report.pdf", source := "local", modified := mL }) ≤ 1/10 := by
    have h1 : rankKey (rankOne now "Report.pdf"
        { title := "Report.pdf", source := "local", modified := mL }) =
        0 + jsMin (recencyBoost now
          { title := "Report.pdf", source := "local", modified := mL })
          5 * (1/50) := rfl
    rw [h1]
    have h2 := jsMin_le_right (recencyBoost now
      { title := "Report.pdf", source := "local", modified := mL }) 5
    have h3 := mul_le_mul_of_nonneg_right h2 (by norm_num : (0:ℚ) ≤ 1/50)
    linarith
  have hvD : (1/5 : ℚ) ≤ rankKey (rankOne now "Report.pdf"
      { title := "Annual Report.pdf", source := "google-drive",
        modified := mD }) := by
    have h1 : rankKey (rankOne now "Report.pdf"
        { title := "Annual Report.pdf", source := "google-drive",
          modified := mD }) =
        1/5 + jsMin (recencyBoost now
          { title := "Annual Report.pdf", source := "google-drive",
            modified := mD }) 5 * (1/50) := rfl
    rw [h1]
    have h2 : (0:ℚ) ≤ jsMin (recencyBoost now
        { title := "Annual Report.pdf", source := "google-drive",
          modified := mD }) 5 :=
      jsMin_nonneg (recencyBoost_nonneg hD) (by norm_num)
    have h3 := mul_le_mul_of_nonneg_right h2 (by norm_num : (0:ℚ) ≤ 1/50)
    linarith
  have hno : ¬ (rankKey (rankOne now "Report.pdf"
      { title := "Annual Report.pdf", source := "google-drive",
        modified := mD }) <
      rankKey (rankOne now "Report.pdf"
        { title := "Report.pdf", source := "local", modified := mL })) := by
    intro hlt
    linarith
  simp only [rank, List.map, sortBy, List.foldr, insertBy]
  rw [if_neg hno]
  rfl

/-- Claim C9 witness: the scenario with both `modified` fields null. -/
theorem exact_match_wins_witness :
    (∀ t : ℤ, (none : Option ℤ) = some t → t ≤ 0) ∧
    ((rank 0
        [{ title := "Report.pdf", source := "local", modified := none },
         { title := "Annual Report.pdf", source := "google-drive",
           modified := none }] "Report.pdf").map SearchResult.source) =
      ["local", "google-drive"] :=
  ⟨(fun _ ht => nomatch ht),
   exact_match_wins 0 none none (fun _ ht => nomatch ht)⟩

/-- Claim C9 counterexample: with a far-future Drive `modified` timestamp the
recency term is unboundedly negative (`Math.min` only caps from above), so the
substring-matching Drive result overtakes the exact local match — the original
claim's "regardless of the two results' modified timestamps" fails. -/
theorem exact_match_future_timestamp_cex :
    ((rank 0
        [{ title := "Report.pdf", source := "local" },
         { title := "Annual Report.pdf", source := "google-drive",
           modified := some 3153600000000 }] "Report.pdf").map
      SearchResult.source) = ["google-drive", "local"] := by
  have hD : rankKey (rankOne 0 "Report.pdf"
      { title := "Annual Report.pdf", source := "google-drive",
        modified := some 3153600000000 }) = -9/5 := by
    show (1/5 : ℚ) + jsMin (((0 - 3153600000000 : ℤ) : ℚ) / yearMs) 5 * (1/50)
        = -9/5
    have hb : (((0 - 3153600000000 : ℤ) : ℚ) / yearMs) = -100 := by
      norm_num [yearMs]
    rw [hb, show jsMin (-100 : ℚ) 5 = -100 from if_pos (by norm_num)]
    norm_num
  have hL : rankKey (rankOne 0 "Report.pdf"
      { title := "Report.pdf", source := "local" }) = 1/10 := by
    show (0 : ℚ) + jsMin 5 5 * (1/50) = 1/10
    rw [show jsMin (5 : ℚ) 5 = 5 from if_pos (by norm_num)]
    norm_num
  have hlt : rankKey (rankOne 0 "Report.pdf"
      { title := "Annual Report.pdf", source := "google-drive",
        modified := some 3153600000000 }) <
      rankKey (rankOne 0 "Report.pdf"
        { title := "Report.pdf", source := "local" }) := by
    rw [hD, hL]; norm_num
  simp only [rank, List.map, sortBy, List.foldr, insertBy]
  rw [if_pos hlt]
  rfl

/-- Claim C10: every local-connector record carries the fixed account
`"this-mac"`, so a non-empty `includeAccounts` filter without `"this-mac"`
removes every local-source result from the search output (the remote
connectors never emit the `local` source tag). -/
theorem local_account_fixed_and_filtered
    (fuse : List SearchResult → String → List (SearchResult × Option ℚ))
    (entries : List (String × Option FsStat)) (name : String) (now : ℤ)
    (srcs accs : List String) (ga ma out : List SearchResult)
    (hfuse : ∀ p ∈ fuse (entries.map (fun e => mkLocalFile e.1 e.2)) name,
      p.1 ∈ entries.map (fun e => mkLocalFile e.1 e.2))
    (haccs : accs ≠ []) (hthis : "this-mac" ∉ accs)
    (hother : ∀ r ∈ ga ++ ma, r.source ≠ "local")
    (hout : unifiedSearchByName now name ⟨srcs, accs⟩
      (.ok (searchLocalByName fuse entries name)) (.ok ga) (.ok ma) = .ok out) :
    (∀ r ∈ searchLocalByName fuse entries name, r.account = "this-mac") ∧
    (∀ r ∈ out, r.source ≠ "local") := by
  have hloc : ∀ r ∈ searchLocalByName fuse entries name,
      r.account = "this-mac" := by
    intro r hr
    simp only [searchLocalByName] at hr
    by_cases ht : strTrim name = ""
    · rw [if_pos ht] at hr
      have h1 := List.take_subset _ _ hr
      rcases List.mem_map.mp h1 with ⟨e, _, hq⟩
      rw [← hq]
      rfl
    · rw [if_neg ht] at hr
      have h1 := mem_sortBy.mp hr
      rcases List.mem_map.mp h1 with ⟨p, hp, hq⟩
      have h2 := hfuse p hp
      rcases List.mem_map.mp h2 with ⟨e, _, hq2⟩
      rw [← hq]
      show p.1.account = "this-mac"
      rw [← hq2]
      rfl
  refine ⟨hloc, ?_⟩
  rw [unifiedSearch_ok_eq] at hout
  have hoeq := Except.ok.inj hout
  subst hoeq
  intro r hr
  rcases mem_mergeFilterRank hr with ⟨r0, h0, he, hacc, _⟩
  have hie : ¬ accs.isEmpty = true := by
    cases accs
    · exact absurd rfl haccs
    · simp
  have hacc' : r0.account ∈ accs := hacc hie
  rcases List.mem_append.mp h0 with h | h
  · rcases List.mem_append.mp h with h | h
    · have hl := mem_of_mem_iteList h
      have ha := hloc r0 hl
      rw [ha] at hacc'
      exact (hthis hacc').elim
    · have hs := hother r0 (List.mem_append.mpr
        (Or.inl (mem_of_mem_iteList h)))
      rw [he]
      exact hs
  · have hs := hother r0 (List.mem_append.mpr
      (Or.inr (mem_of_mem_iteList h)))
    rw [he]
    exact hs

/-- Claim C10 witness: one local file, an account filter naming a different
account — the local record is dropped. -/
theorem local_account_fixed_and_filtered_witness :
    (∀ r ∈ searchLocalByName (fun fs _ => fs.map (fun f => (f, some 0)))
        [("docs/a.txt", none)] "a", r.account = "this-mac") ∧
    (∀ r ∈ ([] : List SearchResult), r.source ≠ "local") :=
  local_account_fixed_and_filtered
    (fun fs _ => fs.map (fun f => (f, some 0)))
    [("docs/a.txt", none)] "a" 0 [] ["other"] [] [] []
    (by decide) (by decide) (by decide) (by decide) rfl
